import Mathlib

/-!
# Verification of the Vero Echo valuation engine

Shallow embedding of `src/logic/calculator.py` (the TEV valuation engine)
and of the spreadsheet-upload normalizers in `src/app.py`, with theorems
settling the specification claims about them.

Numeric cells are modelled over `ℚ`: the arithmetic of the engine is plain
`+`, `*`, `/` on the quantities and rates, and every claim is about exact
algebraic identities of those operations.
-/

namespace Vero

/-- A quantity cell of an input table before numeric cleaning: a number,
a missing value (`NaN`/`None`), or free text.  `app.py` cleans quantity
columns with `pd.to_numeric(..., errors="coerce").fillna(0.0)`
(app.py:1432, 1584, 1655) and the valuators re-apply `.fillna(0)`
(calculator.py:111-112, 171-172, 225-233). -/
inductive Cell where
  | num (q : ℚ)
  | missing
  | text (s : String)
deriving Repr, DecidableEq

/-- The numeric value a quantity cell contributes after the
`to_numeric(errors="coerce")`/`fillna(0)` pipeline: numbers survive,
missing and non-numeric cells become 0. -/
def coerceCell : Cell → ℚ
  | Cell.num q => q
  | Cell.missing => 0
  | Cell.text _ => 0

/-! ## Reference tables (§3 of the spec, `load_reference_tables`) -/

/-- One row of `media_rate_reference` (columns `Category`, `Type`,
`tier_value`). -/
structure MediaRefRow where
  category : String
  type_ : String
  tier_value : ℚ
deriving Repr, DecidableEq

/-- One row of `creator_rate_reference` (columns `Platform`, `Type`,
`Tier`, `Rate`). -/
structure CreatorRefRow where
  platform : String
  type_ : String
  tier : String
  rate : ℚ
deriving Repr, DecidableEq

/-- One row of `community_rate_reference` (platform plus the four
engagement weights). -/
structure CpeRow where
  platform : String
  weight_content : ℚ
  weight_passive : ℚ
  weight_active : ℚ
  weight_amplification : ℚ
deriving Repr, DecidableEq

/-- The three reference tables returned by `load_reference_tables`. -/
structure RefTables where
  media_tier_df : List MediaRefRow
  creator_rate_df : List CreatorRefRow
  cpe_df : List CpeRow
deriving Repr, DecidableEq

/-! ## Media echo (`_normalize_media_inputs`, `calculate_media_echo`) -/

/-- One row of the media input table from the UI: `channel_type`,
`tier_name`, `mentions`.  The `category`/`typeForJoin` fields model the
`Category` and `TypeForJoin` columns that `_normalize_media_inputs` adds;
tables arriving from the UI do not have them (`none`). -/
structure MediaRow where
  channel_type : String
  tier_name : String
  mentions : Cell
  category : Option String := none
  typeForJoin : Option String := none
deriving Repr, DecidableEq

/-- The `type_map` dictionary of `_normalize_media_inputs` applied via
`.map(type_map).fillna(df["tier_name"])`: mapped values for the six UI
labels, pass-through otherwise. -/
def mediaTypeMap (s : String) : String :=
  if s = "Major" then "Major national media"
  else if s = "Industry" then "Industry-specific"
  else if s = "Local/Niche" then "Local/niche"
  else if s = "Tier 1" then "1"
  else if s = "Tier 2" then "2"
  else if s = "Tier 3" then "3"
  else s

/-- The per-row effect of `_normalize_media_inputs`: set `Category`
from `channel_type` and `TypeForJoin` from the tier-name map. -/
def normalizeMediaRow (r : MediaRow) : MediaRow :=
  { r with category := some r.channel_type,
           typeForJoin := some (mediaTypeMap r.tier_name) }

/-- Embeds `_normalize_media_inputs`: copy the frame and set the `Category`
and `TypeForJoin` columns. -/
def normalizeMediaInputs (rows : List MediaRow) : List MediaRow :=
  rows.map normalizeMediaRow

/-- The reference rows a normalized media row joins with in the left
merge on `(Category, TypeForJoin) = (Category, Type)`. -/
def mediaMatches (ref : List MediaRefRow) (r : MediaRow) : List MediaRefRow :=
  ref.filter fun t =>
    some t.category = r.category && some t.type_ = r.typeForJoin

/-- Contribution of one normalized media input row to the sum: the left
merge keeps an unmatched row once with `tier_value = NaN`, which
`fillna(0)` turns into rate 0; a matched row appears once per matching
reference row. -/
def mediaRowValue (ref : List MediaRefRow) (r : MediaRow) : ℚ :=
  match mediaMatches ref r with
  | [] => coerceCell r.mentions * 0
  | ms => (ms.map fun t => coerceCell r.mentions * t.tier_value).sum

/-- Embeds `calculate_media_echo`: 0.0 for an absent or empty table, otherwise
normalize, left-join, fill, multiply and sum. -/
def calculate_media_echo (refs : RefTables) (media_inputs : Option (List MediaRow)) : ℚ :=
  match media_inputs with
  | none => 0
  | some rows =>
    if rows.isEmpty then 0
    else ((normalizeMediaInputs rows).map (mediaRowValue refs.media_tier_df)).sum

/-! ## Creator echo (`_normalize_creator_inputs`, `calculate_creator_echo`) -/

/-- One row of the creator input table: `platform`, `content_type`,
`tier`, `num_posts`; `typeForJoin` models the added column. -/
structure CreatorRow where
  platform : String
  content_type : String
  tier : String
  num_posts : Cell
  typeForJoin : Option String := none
deriving Repr, DecidableEq

/-- The `type_map` of `_normalize_creator_inputs` applied via
`.map(type_map).fillna(df["content_type"])`. -/
def creatorTypeMap (s : String) : String :=
  if s = "Static Post" then "Static/General Post"
  else if s = "Static/General Post" then "Static/General Post"
  else if s = "Video Post" then "Video Post"
  else s

/-- The per-row effect of `_normalize_creator_inputs`: set
`TypeForJoin` from the content-type map. -/
def normalizeCreatorRow (r : CreatorRow) : CreatorRow :=
  { r with typeForJoin := some (creatorTypeMap r.content_type) }

/-- Embeds `_normalize_creator_inputs`: copy the frame and set `TypeForJoin`. -/
def normalizeCreatorInputs (rows : List CreatorRow) : List CreatorRow :=
  rows.map normalizeCreatorRow

/-- The reference rows a normalized creator row joins with in the left
merge on `(platform, TypeForJoin, tier) = (Platform, Type, Tier)`. -/
def creatorMatches (ref : List CreatorRefRow) (r : CreatorRow) : List CreatorRefRow :=
  ref.filter fun t =>
    t.platform = r.platform && some t.type_ = r.typeForJoin && t.tier = r.tier

/-- Contribution of one normalized creator row: unmatched rows get rate
`fillna(0)`; matched rows contribute once per matching reference row. -/
def creatorRowValue (ref : List CreatorRefRow) (r : CreatorRow) : ℚ :=
  match creatorMatches ref r with
  | [] => coerceCell r.num_posts * 0
  | ms => (ms.map fun t => coerceCell r.num_posts * t.rate).sum

/-- Embeds `calculate_creator_echo`: 0.0 for an absent or empty table,
otherwise normalize, left-join, fill, multiply and sum. -/
def calculate_creator_echo (refs : RefTables) (creator_inputs : Option (List CreatorRow)) : ℚ :=
  match creator_inputs with
  | none => 0
  | some rows =>
    if rows.isEmpty then 0
    else ((normalizeCreatorInputs rows).map (creatorRowValue refs.creator_rate_df)).sum

/-! ## Community echo (`calculate_community_echo`) -/

/-- One row of the community input table. -/
structure CommRow where
  platform : String
  content_creation : Cell
  passive_engagement : Cell
  active_engagement : Cell
  amplification : Cell
deriving Repr, DecidableEq

/-- The community input table: `hasCC` records whether the
`content_creation` column is present (the UI may not send it;
calculator.py:200-202 synthesizes it as all-zero on a copy). -/
structure CommTable where
  hasCC : Bool
  rows : List CommRow
deriving Repr, DecidableEq

/-- The effective `content_creation` cell of a row: the cell of the row when
the column is present, the synthesized 0 otherwise. -/
def effectiveCC (hasCC : Bool) (r : CommRow) : Cell :=
  if hasCC then r.content_creation else Cell.num 0

/-- The reference rows a community row joins with in the left merge on
`platform`. -/
def commMatches (ref : List CpeRow) (r : CommRow) : List CpeRow :=
  ref.filter fun t => t.platform = r.platform

/-- Weighted contribution of one community row against one reference
weights of the reference row. -/
def commWeighted (hasCC : Bool) (r : CommRow) (t : CpeRow) : ℚ :=
  coerceCell (effectiveCC hasCC r) * t.weight_content
    + coerceCell r.passive_engagement * t.weight_passive
    + coerceCell r.active_engagement * t.weight_active
    + coerceCell r.amplification * t.weight_amplification

/-- Contribution of one community row: an unmatched platform keeps the
row once with all four weights `fillna(0)`. -/
def commRowValue (ref : List CpeRow) (hasCC : Bool) (r : CommRow) : ℚ :=
  match commMatches ref r with
  | [] => commWeighted hasCC r ⟨r.platform, 0, 0, 0, 0⟩
  | ms => (ms.map (commWeighted hasCC r)).sum

/-- Embeds `calculate_community_echo`: 0.0 for an absent or empty table,
otherwise synthesize a missing `content_creation` column as zero (on a
copy), left-join on platform, fill, weight and sum. -/
def calculate_community_echo (refs : RefTables) (comm_inputs : Option CommTable) : ℚ :=
  match comm_inputs with
  | none => 0
  | some t =>
    if t.rows.isEmpty then 0
    else (t.rows.map (commRowValue refs.cpe_df t.hasCC)).sum

/-! ## Campaign calculator (`calculate_campaign`) -/

/-- The result dictionary of `calculate_campaign`. -/
structure CampaignResult where
  media : ℚ
  creator : ℚ
  community : ℚ
  tev : ℚ
  roi_m : ℚ
  roi_pct : ℚ
deriving Repr, DecidableEq

/-- Embeds `calculate_campaign`: run the three valuators, sum into `tev`, and
derive the ROI fields; the guard `if inv and inv > 0` is the Python
truthiness test conjoined with the comparison. -/
def calculate_campaign (refs : RefTables) (inv : ℚ)
    (media_df : Option (List MediaRow)) (creator_df : Option (List CreatorRow))
    (comm_df : Option CommTable) : CampaignResult :=
  let media_val := calculate_media_echo refs media_df
  let creator_val := calculate_creator_echo refs creator_df
  let comm_val := calculate_community_echo refs comm_df
  let tev := media_val + creator_val + comm_val
  if inv ≠ 0 ∧ inv > 0 then
    { media := media_val, creator := creator_val, community := comm_val,
      tev := tev, roi_m := tev / inv, roi_pct := (tev - inv) / inv * 100 }
  else
    { media := media_val, creator := creator_val, community := comm_val,
      tev := tev, roi_m := 0, roi_pct := 0 }

/-! ## Spreadsheet-upload normalizers (`src/app.py`) -/

/-- Whether `pat` occurs as a contiguous substring of the character
list, the semantics of the Python test `pat in s`. -/
def hasSubstrAux (pat : List Char) : List Char → Bool
  | [] => List.isPrefixOf pat []
  | c :: t => List.isPrefixOf pat (c :: t) || hasSubstrAux pat t

/-- Whether `pat` occurs as a substring of `s`. -/
def strContains (s pat : String) : Bool :=
  hasSubstrAux pat.data s.data

/-- Python `str.upper()` on the character list. -/
def toUpperStr (s : String) : String := String.mk (s.data.map Char.toUpper)

/-- Python `str.lower()` on the character list. -/
def toLowerStr (s : String) : String := String.mk (s.data.map Char.toLower)

/-- Python `str.replace(old, "")` for a one-character `old`: delete every
occurrence of that character. -/
def removeChar (c : Char) (s : String) : String :=
  String.mk (s.data.filter fun d => d ≠ c)

/-- Embeds `_stringify` on a string value: `str(value).strip()` — drop leading
and trailing whitespace. -/
def stringify (s : String) : String :=
  String.mk (((s.data.dropWhile Char.isWhitespace).reverse.dropWhile
    Char.isWhitespace).reverse)

/-- The uppercase-key platform dictionary of `_normalize_platform`. -/
def platformMapLookup (raw : String) : Option String :=
  if raw = "FACEBOOK" then some "Facebook"
  else if raw = "INSTAGRAM" then some "Instagram"
  else if raw = "TIKTOK" then some "TikTok"
  else if raw = "YOUTUBE" then some "YouTube"
  else if raw = "YOUTUBE SHORTS" then some "YouTube"
  else if raw = "X" then some "X (Twitter)"
  else if raw = "TWITTER" then some "X (Twitter)"
  else if raw = "X (TWITTER)" then some "X (Twitter)"
  else if raw = "LEMON 8" then some "Lemon 8"
  else if raw = "LEMON8" then some "Lemon 8"
  else none

/-- Embeds `_normalize_platform`: look the stripped, uppercased text up in the
platform dictionary; unrecognized text falls back to the stripped
original (`mapping.get(raw, _stringify(value))`). -/
def normalize_platform (value : String) : String :=
  match platformMapLookup (toUpperStr (stringify value)) with
  | some v => v
  | none => stringify value

/-- Embeds `_normalize_content_type`: the lowered text is a video post when it
contains "video", "reel" or "story", otherwise a static post. -/
def normalize_content_type (value : String) : String :=
  let raw := toLowerStr (stringify value)
  if strContains raw "video" || strContains raw "reel" || strContains raw "story" then
    "Video Post"
  else
    "Static Post"

/-- The key of `_normalize_tier`: strip, delete hyphens and spaces,
uppercase. -/
def tierKey (value : String) : String :=
  toUpperStr (removeChar ' ' (removeChar '-' (stringify value)))

/-- The uppercase-key tier dictionary of `_normalize_tier`.  The keys
"MIDTIER", "MID-TIER" and "MID TIER" of the Python dict collapse to the
single reachable key "MIDTIER" after `tierKey` removes hyphens and
spaces. -/
def tierMapLookup (raw : String) : Option String :=
  if raw = "MEGA" then some "Mega"
  else if raw = "MACRO" then some "Macro"
  else if raw = "MIDTIER" then some "Mid-tier"
  else if raw = "MID-TIER" then some "Mid-tier"
  else if raw = "MID TIER" then some "Mid-tier"
  else if raw = "MICRO" then some "Micro"
  else if raw = "NANO" then some "Nano"
  else none

/-- Embeds `_normalize_tier`: look the squashed, uppercased text up in the tier
dictionary; unrecognized text falls back to `"Macro"`
(`mapping.get(raw, "Macro")`). -/
def normalize_tier (value : String) : String :=
  match tierMapLookup (tierKey value) with
  | some v => v
  | none => "Macro"

/-! ## Helper lemmas -/

/-- The media echo of a present table is the sum of the per-row
contributions of its normalized rows (the empty guard agrees with the
empty sum). -/
theorem media_echo_eq_sum (refs : RefTables) (rows : List MediaRow) :
    calculate_media_echo refs (some rows)
      = ((normalizeMediaInputs rows).map (mediaRowValue refs.media_tier_df)).sum := by
  cases rows with
  | nil => simp [calculate_media_echo, normalizeMediaInputs]
  | cons a l => rfl

/-- The creator echo of a present table is the sum of the per-row
contributions of its normalized rows. -/
theorem creator_echo_eq_sum (refs : RefTables) (rows : List CreatorRow) :
    calculate_creator_echo refs (some rows)
      = ((normalizeCreatorInputs rows).map (creatorRowValue refs.creator_rate_df)).sum := by
  cases rows with
  | nil => simp [calculate_creator_echo, normalizeCreatorInputs]
  | cons a l => rfl

/-- The community echo of a present table is the sum of the per-row
contributions. -/
theorem comm_echo_eq_sum (refs : RefTables) (t : CommTable) :
    calculate_community_echo refs (some t)
      = (t.rows.map (commRowValue refs.cpe_df t.hasCC)).sum := by
  cases h : t.rows with
  | nil => simp [calculate_community_echo, h]
  | cons a l => simp [calculate_community_echo, h]

/-- Empty reference tables, used to instantiate witnesses. -/
def emptyRefs : RefTables := ⟨[], [], []⟩

/-! ## Claims -/

/-- C1: for every investment value and every triple of input tables, the
result of `calculate_campaign` satisfies `tev = media + creator +
community` exactly, the three components being the values the three
valuators return on those tables. -/
theorem claim_C1_tev_component_sum (refs : RefTables) (inv : ℚ)
    (media_df : Option (List MediaRow)) (creator_df : Option (List CreatorRow))
    (comm_df : Option CommTable) :
    (calculate_campaign refs inv media_df creator_df comm_df).tev
      = calculate_media_echo refs media_df + calculate_creator_echo refs creator_df
        + calculate_community_echo refs comm_df
    ∧ (calculate_campaign refs inv media_df creator_df comm_df).tev
      = (calculate_campaign refs inv media_df creator_df comm_df).media
        + (calculate_campaign refs inv media_df creator_df comm_df).creator
        + (calculate_campaign refs inv media_df creator_df comm_df).community := by
  unfold calculate_campaign
  split <;> exact ⟨rfl, rfl⟩

/-- C2: `calculate_campaign` returns `roi_m = tev/inv` and
`roi_pct = (tev - inv)/inv * 100` when `inv > 0`, and `roi_m = 0`,
`roi_pct = 0` whenever `inv ≤ 0`. -/
theorem claim_C2_roi_fields (refs : RefTables) (inv : ℚ)
    (media_df : Option (List MediaRow)) (creator_df : Option (List CreatorRow))
    (comm_df : Option CommTable) :
    (0 < inv →
      (calculate_campaign refs inv media_df creator_df comm_df).roi_m
        = (calculate_campaign refs inv media_df creator_df comm_df).tev / inv
      ∧ (calculate_campaign refs inv media_df creator_df comm_df).roi_pct
        = ((calculate_campaign refs inv media_df creator_df comm_df).tev - inv) / inv * 100)
    ∧ (inv ≤ 0 →
      (calculate_campaign refs inv media_df creator_df comm_df).roi_m = 0
      ∧ (calculate_campaign refs inv media_df creator_df comm_df).roi_pct = 0) := by
  constructor
  · intro h
    simp [calculate_campaign, h, ne_of_gt h]
  · intro h
    simp [calculate_campaign, not_lt.mpr h]

/-- Witness for C2 at `inv = 2` and `inv = -1` on empty tables. -/
theorem claim_C2_roi_fields_witness :
    ((0:ℚ) < 2
      ∧ (calculate_campaign emptyRefs 2 none none none).roi_m
          = (calculate_campaign emptyRefs 2 none none none).tev / 2
      ∧ (calculate_campaign emptyRefs 2 none none none).roi_pct
          = ((calculate_campaign emptyRefs 2 none none none).tev - 2) / 2 * 100)
    ∧ ((-1:ℚ) ≤ 0
      ∧ (calculate_campaign emptyRefs (-1) none none none).roi_m = 0
      ∧ (calculate_campaign emptyRefs (-1) none none none).roi_pct = 0) :=
  ⟨⟨by norm_num, (claim_C2_roi_fields emptyRefs 2 none none none).1 (by norm_num)⟩,
   ⟨by norm_num, (claim_C2_roi_fields emptyRefs (-1) none none none).2 (by norm_num)⟩⟩

/-- C8: for each of the three valuators, an absent (`None`) or empty
input table makes the valuator return exactly 0. -/
theorem claim_C8_empty_inputs_zero (refs : RefTables) (b : Bool) :
    calculate_media_echo refs none = 0
    ∧ calculate_media_echo refs (some []) = 0
    ∧ calculate_creator_echo refs none = 0
    ∧ calculate_creator_echo refs (some []) = 0
    ∧ calculate_community_echo refs none = 0
    ∧ calculate_community_echo refs (some ⟨b, []⟩) = 0 :=
  ⟨rfl, rfl, rfl, rfl, rfl, rfl⟩

/-- C5: the UI-side normalizers implement exactly the stated label maps
— media `tier_name` `Major` ↦ `Major national media`, `Industry` ↦
`Industry-specific`, `Local/Niche` ↦ `Local/niche`, `Tier 1` ↦ `1`,
`Tier 2` ↦ `2`, `Tier 3` ↦ `3`; creator `content_type` `Static Post` ↦
`Static/General Post`, `Video Post` ↦ `Video Post` — and every string
not listed passes through unchanged. -/
theorem claim_C5_ui_label_maps :
    (mediaTypeMap "Major" = "Major national media"
      ∧ mediaTypeMap "Industry" = "Industry-specific"
      ∧ mediaTypeMap "Local/Niche" = "Local/niche"
      ∧ mediaTypeMap "Tier 1" = "1"
      ∧ mediaTypeMap "Tier 2" = "2"
      ∧ mediaTypeMap "Tier 3" = "3")
    ∧ (creatorTypeMap "Static Post" = "Static/General Post"
      ∧ creatorTypeMap "Video Post" = "Video Post")
    ∧ (∀ s : String, s ≠ "Major" → s ≠ "Industry" → s ≠ "Local/Niche" →
        s ≠ "Tier 1" → s ≠ "Tier 2" → s ≠ "Tier 3" → mediaTypeMap s = s)
    ∧ (∀ s : String, s ≠ "Static Post" → s ≠ "Video Post" → creatorTypeMap s = s) := by
  refine ⟨by decide, by decide, fun s h1 h2 h3 h4 h5 h6 => ?_, fun s h1 h2 => ?_⟩
  · simp [mediaTypeMap, h1, h2, h3, h4, h5, h6]
  · by_cases h3 : s = "Static/General Post"
    · subst h3; decide
    · simp [creatorTypeMap, h1, h2, h3]

/-- Witness for the pass-through clauses of C5 at the unlisted labels
`Ultra-Major` and `Carousel`. -/
theorem claim_C5_ui_label_maps_witness :
    ("Ultra-Major" ≠ "Major" ∧ "Ultra-Major" ≠ "Industry"
      ∧ "Ultra-Major" ≠ "Local/Niche" ∧ "Ultra-Major" ≠ "Tier 1"
      ∧ "Ultra-Major" ≠ "Tier 2" ∧ "Ultra-Major" ≠ "Tier 3"
      ∧ mediaTypeMap "Ultra-Major" = "Ultra-Major")
    ∧ ("Carousel" ≠ "Static Post" ∧ "Carousel" ≠ "Video Post"
      ∧ creatorTypeMap "Carousel" = "Carousel") :=
  ⟨⟨by decide, by decide, by decide, by decide, by decide, by decide,
    claim_C5_ui_label_maps.2.2.1 "Ultra-Major" (by decide) (by decide)
      (by decide) (by decide) (by decide) (by decide)⟩,
   ⟨by decide, by decide,
    claim_C5_ui_label_maps.2.2.2 "Carousel" (by decide) (by decide)⟩⟩

/-- The map `mediaTypeMap` is idempotent: its outputs are never among its six
keys. -/
theorem mediaTypeMap_idem (s : String) :
    mediaTypeMap (mediaTypeMap s) = mediaTypeMap s := by
  by_cases h1 : s = "Major"
  · subst h1; decide
  · by_cases h2 : s = "Industry"
    · subst h2; decide
    · by_cases h3 : s = "Local/Niche"
      · subst h3; decide
      · by_cases h4 : s = "Tier 1"
        · subst h4; decide
        · by_cases h5 : s = "Tier 2"
          · subst h5; decide
          · by_cases h6 : s = "Tier 3"
            · subst h6; decide
            · have hs : mediaTypeMap s = s := by
                simp [mediaTypeMap, h1, h2, h3, h4, h5, h6]
              rw [hs, hs]

/-- The map `creatorTypeMap` is idempotent: its outputs are fixed points. -/
theorem creatorTypeMap_idem (s : String) :
    creatorTypeMap (creatorTypeMap s) = creatorTypeMap s := by
  by_cases h1 : s = "Static Post"
  · subst h1; decide
  · by_cases h2 : s = "Static/General Post"
    · subst h2; decide
    · by_cases h3 : s = "Video Post"
      · subst h3; decide
      · have hs : creatorTypeMap s = s := by simp [creatorTypeMap, h1, h2, h3]
        rw [hs, hs]

/-- Every output of `normalize_tier` is one of the five canonical
tiers. -/
theorem normalize_tier_output_canonical (s : String) :
    normalize_tier s = "Mega" ∨ normalize_tier s = "Macro"
      ∨ normalize_tier s = "Mid-tier" ∨ normalize_tier s = "Micro"
      ∨ normalize_tier s = "Nano" := by
  unfold normalize_tier tierMapLookup
  split_ifs <;> simp

/-- Every output of `normalize_content_type` is `Video Post` or
`Static Post`. -/
theorem normalize_content_type_output (s : String) :
    normalize_content_type s = "Video Post"
      ∨ normalize_content_type s = "Static Post" := by
  by_cases h : (strContains (toLowerStr (stringify s)) "video"
      || strContains (toLowerStr (stringify s)) "reel"
      || strContains (toLowerStr (stringify s)) "story") = true
  · left; simp [normalize_content_type, h]
  · right; simp [normalize_content_type, h]

/-- C10 counterexample: `mega` is not one of the five canonical tier
labels, yet the upload tier normalizer maps it to `Mega`, not to
`Macro` — refuting the clause that every non-canonical string maps to
`Macro`. -/
theorem claim_C10_counterexample :
    ("mega" ≠ "Mega" ∧ "mega" ≠ "Macro" ∧ "mega" ≠ "Mid-tier"
      ∧ "mega" ≠ "Micro" ∧ "mega" ≠ "Nano")
    ∧ normalize_tier "mega" = "Mega"
    ∧ normalize_tier "mega" ≠ "Macro" := by decide

/-- C10 (amended): every normalization function is idempotent and its
canonical outputs are fixed points — the media tier map fixes its six
canonical labels, the creator map fixes its two, the upload tier
normalizer fixes the five canonical tiers and maps every string whose
squashed uppercase key is unrecognized to `Macro`, and the upload
content-type normalizer fixes `Video Post` and `Static Post`. -/
theorem claim_C10_normalizers_idempotent :
    (∀ s : String, mediaTypeMap (mediaTypeMap s) = mediaTypeMap s)
    ∧ (mediaTypeMap "Major national media" = "Major national media"
      ∧ mediaTypeMap "Industry-specific" = "Industry-specific"
      ∧ mediaTypeMap "Local/niche" = "Local/niche"
      ∧ mediaTypeMap "1" = "1" ∧ mediaTypeMap "2" = "2" ∧ mediaTypeMap "3" = "3")
    ∧ (∀ s : String, creatorTypeMap (creatorTypeMap s) = creatorTypeMap s)
    ∧ (creatorTypeMap "Static/General Post" = "Static/General Post"
      ∧ creatorTypeMap "Video Post" = "Video Post")
    ∧ (∀ s : String, normalize_tier (normalize_tier s) = normalize_tier s)
    ∧ (normalize_tier "Mega" = "Mega" ∧ normalize_tier "Macro" = "Macro"
      ∧ normalize_tier "Mid-tier" = "Mid-tier" ∧ normalize_tier "Micro" = "Micro"
      ∧ normalize_tier "Nano" = "Nano")
    ∧ (∀ s : String, tierMapLookup (tierKey s) = none → normalize_tier s = "Macro")
    ∧ (∀ s : String,
        normalize_content_type (normalize_content_type s) = normalize_content_type s)
    ∧ (normalize_content_type "Video Post" = "Video Post"
      ∧ normalize_content_type "Static Post" = "Static Post") := by
  refine ⟨mediaTypeMap_idem, by decide, creatorTypeMap_idem, by decide,
    fun s => ?_, by decide, fun s h => ?_, fun s => ?_, by decide⟩
  · rcases normalize_tier_output_canonical s with h | h | h | h | h <;> rw [h] <;> decide
  · unfold normalize_tier
    rw [h]
  · rcases normalize_content_type_output s with h | h <;> rw [h] <;> decide

/-- Witness for the fallback clause of C10 at the unrecognized tier text
`huge`. -/
theorem claim_C10_normalizers_idempotent_witness :
    tierMapLookup (tierKey "huge") = none ∧ normalize_tier "huge" = "Macro" :=
  ⟨by decide, claim_C10_normalizers_idempotent.2.2.2.2.2.2.1 "huge" (by decide)⟩

/-- C7 counterexample: `Threads` is a platform text the upload
matcher does not recognize, and `_normalize_platform` passes it through
unchanged instead of defaulting it to the fallback tier `Macro`. -/
theorem claim_C7_counterexample :
    platformMapLookup (toUpperStr (stringify "Threads")) = none
    ∧ normalize_platform "Threads" = "Threads"
    ∧ normalize_platform "Threads" ≠ "Macro" := by decide

/-- C7 (amended): the spreadsheet-upload normalizer canonicalizes
free-text platform and tier strings into the fixed vocabularies
(platform matching is case-insensitive after trimming, tier matching
also ignores spaces and hyphens); every tier text not recognized by the
matcher defaults to the fallback tier `Macro`, while unrecognized
platform text passes through trimmed rather than being rejected; and
content-type free text containing `video`, `reel` or `story`
(case-insensitively) is classified as `Video Post`, otherwise as
`Static Post`. -/
theorem claim_C7_upload_normalizers :
    (normalize_platform "TIKTOK" = "TikTok"
      ∧ normalize_platform " x (twitter) " = "X (Twitter)"
      ∧ normalize_tier "Mid Tier" = "Mid-tier"
      ∧ normalize_tier " MEGA " = "Mega")
    ∧ (∀ s : String, tierMapLookup (tierKey s) = none → normalize_tier s = "Macro")
    ∧ (∀ s : String, platformMapLookup (toUpperStr (stringify s)) = none →
        normalize_platform s = stringify s)
    ∧ (∀ s : String, (strContains (toLowerStr (stringify s)) "video"
        || strContains (toLowerStr (stringify s)) "reel"
        || strContains (toLowerStr (stringify s)) "story") = true →
        normalize_content_type s = "Video Post")
    ∧ (∀ s : String, (strContains (toLowerStr (stringify s)) "video"
        || strContains (toLowerStr (stringify s)) "reel"
        || strContains (toLowerStr (stringify s)) "story") = false →
        normalize_content_type s = "Static Post") := by
  refine ⟨by decide, fun s h => ?_, fun s h => ?_, fun s h => ?_, fun s h => ?_⟩
  · unfold normalize_tier
    rw [h]
  · unfold normalize_platform
    rw [h]
  · simp [normalize_content_type, h]
  · simp [normalize_content_type, h]

/-- Witness for the conditional clauses of C7 at the concrete texts
`Humongous` (unrecognized tier), `Threads` (unrecognized platform),
`IG Story` (video-ish content) and `Photo carousel` (static content). -/
theorem claim_C7_upload_normalizers_witness :
    (tierMapLookup (tierKey "Humongous") = none
      ∧ normalize_tier "Humongous" = "Macro")
    ∧ (platformMapLookup (toUpperStr (stringify "Threads")) = none
      ∧ normalize_platform "Threads" = stringify "Threads")
    ∧ ((strContains (toLowerStr (stringify "IG Story")) "video"
        || strContains (toLowerStr (stringify "IG Story")) "reel"
        || strContains (toLowerStr (stringify "IG Story")) "story") = true
      ∧ normalize_content_type "IG Story" = "Video Post")
    ∧ ((strContains (toLowerStr (stringify "Photo carousel")) "video"
        || strContains (toLowerStr (stringify "Photo carousel")) "reel"
        || strContains (toLowerStr (stringify "Photo carousel")) "story") = false
      ∧ normalize_content_type "Photo carousel" = "Static Post") :=
  ⟨⟨by decide, claim_C7_upload_normalizers.2.1 "Humongous" (by decide)⟩,
   ⟨by decide, claim_C7_upload_normalizers.2.2.1 "Threads" (by decide)⟩,
   ⟨by decide, claim_C7_upload_normalizers.2.2.2.1 "IG Story" (by decide)⟩,
   ⟨by decide, claim_C7_upload_normalizers.2.2.2.2 "Photo carousel" (by decide)⟩⟩

/-- Pulling a constant factor out of a mapped list sum. -/
theorem list_sum_map_mul_left {α : Type} (c : ℚ) (f : α → ℚ) (l : List α) :
    (l.map fun x => c * f x).sum = c * (l.map f).sum := by
  induction l with
  | nil => simp
  | cons a t ih => simp [ih, mul_add]

/-- The contribution of a creator row is its coerced quantity times the sum
of the rates of its matching reference rows (0 when unmatched). -/
theorem creatorRowValue_eq_mul (ref : List CreatorRefRow) (r : CreatorRow) :
    creatorRowValue ref r
      = coerceCell r.num_posts * ((creatorMatches ref r).map CreatorRefRow.rate).sum := by
  unfold creatorRowValue
  cases h : creatorMatches ref r with
  | nil => simp [h]
  | cons a t =>
    exact list_sum_map_mul_left (coerceCell r.num_posts) CreatorRefRow.rate (a :: t)

/-- C3: in every valuator, a row whose normalized join key matches no
entry of the reference table contributes exactly 0 to the sum — the
valuation of the table equals the valuation of the table with the row
removed, the other rows unchanged. -/
theorem claim_C3_unmatched_rows_contribute_zero :
    (∀ (refs : RefTables) (pre post : List MediaRow) (r : MediaRow),
      mediaMatches refs.media_tier_df (normalizeMediaRow r) = [] →
      calculate_media_echo refs (some (pre ++ r :: post))
        = calculate_media_echo refs (some (pre ++ post)))
    ∧ (∀ (refs : RefTables) (pre post : List CreatorRow) (r : CreatorRow),
      creatorMatches refs.creator_rate_df (normalizeCreatorRow r) = [] →
      calculate_creator_echo refs (some (pre ++ r :: post))
        = calculate_creator_echo refs (some (pre ++ post)))
    ∧ (∀ (refs : RefTables) (b : Bool) (pre post : List CommRow) (r : CommRow),
      commMatches refs.cpe_df r = [] →
      calculate_community_echo refs (some ⟨b, pre ++ r :: post⟩)
        = calculate_community_echo refs (some ⟨b, pre ++ post⟩)) := by
  refine ⟨fun refs pre post r h => ?_, fun refs pre post r h => ?_,
    fun refs b pre post r h => ?_⟩
  · have hz : mediaRowValue refs.media_tier_df (normalizeMediaRow r) = 0 := by
      simp [mediaRowValue, h]
    simp [media_echo_eq_sum, normalizeMediaInputs, hz]
  · have hz : creatorRowValue refs.creator_rate_df (normalizeCreatorRow r) = 0 := by
      simp [creatorRowValue, h]
    simp [creator_echo_eq_sum, normalizeCreatorInputs, hz]
  · have hz : commRowValue refs.cpe_df b r = 0 := by
      simp [commRowValue, h, commWeighted]
    simp [comm_echo_eq_sum, hz]

/-- Reference tables with one entry per table, used to instantiate
witnesses on rows that miss all of them. -/
def oneRowRefs : RefTables :=
  ⟨[⟨"Online Article", "Major national media", 500⟩],
   [⟨"TikTok", "Video Post", "Micro", 250⟩],
   [⟨"Instagram", 50, 1, 5, 20⟩]⟩

/-- Witness for C3: an unmatched media, creator and community row each
leave the valuation of a one-row table unchanged. -/
theorem claim_C3_unmatched_rows_contribute_zero_witness :
    (mediaMatches oneRowRefs.media_tier_df
        (normalizeMediaRow ⟨"Social Media", "Ultra-Major", Cell.num 7, none, none⟩) = []
      ∧ calculate_media_echo oneRowRefs
          (some ([⟨"Online Article", "Major", Cell.num 10, none, none⟩]
            ++ ⟨"Social Media", "Ultra-Major", Cell.num 7, none, none⟩ :: []))
        = calculate_media_echo oneRowRefs
          (some ([⟨"Online Article", "Major", Cell.num 10, none, none⟩] ++ [])))
    ∧ (creatorMatches oneRowRefs.creator_rate_df
        (normalizeCreatorRow ⟨"Myspace", "Video Post", "Micro", Cell.num 2, none⟩) = []
      ∧ calculate_creator_echo oneRowRefs
          (some ([] ++ ⟨"Myspace", "Video Post", "Micro", Cell.num 2, none⟩ :: []))
        = calculate_creator_echo oneRowRefs (some ([] ++ [])))
    ∧ (commMatches oneRowRefs.cpe_df
        ⟨"Myspace", Cell.num 1, Cell.num 2, Cell.num 3, Cell.num 4⟩ = []
      ∧ calculate_community_echo oneRowRefs
          (some ⟨true, [] ++ ⟨"Myspace", Cell.num 1, Cell.num 2, Cell.num 3, Cell.num 4⟩ :: []⟩)
        = calculate_community_echo oneRowRefs (some ⟨true, [] ++ []⟩)) :=
  ⟨⟨by decide, claim_C3_unmatched_rows_contribute_zero.1 oneRowRefs
      [⟨"Online Article", "Major", Cell.num 10, none, none⟩] []
      ⟨"Social Media", "Ultra-Major", Cell.num 7, none, none⟩ (by decide)⟩,
   ⟨by decide, claim_C3_unmatched_rows_contribute_zero.2.1 oneRowRefs [] []
      ⟨"Myspace", "Video Post", "Micro", Cell.num 2, none⟩ (by decide)⟩,
   ⟨by decide, claim_C3_unmatched_rows_contribute_zero.2.2 oneRowRefs true [] []
      ⟨"Myspace", Cell.num 1, Cell.num 2, Cell.num 3, Cell.num 4⟩ (by decide)⟩⟩

/-- A creator reference table with a single (hence unique) key tuple,
rate 100, for the concrete scenario of C4. -/
def singleRateRefs : RefTables :=
  ⟨[], [⟨"Instagram", "Video Post", "Macro", 100⟩], []⟩

/-- The contribution of a media row is its coerced quantity times the
sum of the tier values of its matching reference rows (0 when
unmatched). -/
theorem mediaRowValue_eq_mul (ref : List MediaRefRow) (r : MediaRow) :
    mediaRowValue ref r
      = coerceCell r.mentions * ((mediaMatches ref r).map MediaRefRow.tier_value).sum := by
  unfold mediaRowValue
  cases h : mediaMatches ref r with
  | nil => simp [h]
  | cons a t =>
    exact list_sum_map_mul_left (coerceCell r.mentions) MediaRefRow.tier_value (a :: t)

/-- The weighted sum of a community row over a list of reference rows
is linear in the four coerced quantities. -/
theorem comm_weighted_sum_linear (b : Bool) (r : CommRow) (l : List CpeRow) :
    (l.map (commWeighted b r)).sum
      = coerceCell (effectiveCC b r) * (l.map CpeRow.weight_content).sum
        + coerceCell r.passive_engagement * (l.map CpeRow.weight_passive).sum
        + coerceCell r.active_engagement * (l.map CpeRow.weight_active).sum
        + coerceCell r.amplification * (l.map CpeRow.weight_amplification).sum := by
  induction l with
  | nil => simp
  | cons x xs ih =>
    simp only [List.map_cons, List.sum_cons, ih, commWeighted]
    ring

/-- The contribution of a community row is the sum, over the four
quantity columns, of the coerced quantity times the summed matching
weight of that column (all four sums are 0 when unmatched). -/
theorem commRowValue_linear (ref : List CpeRow) (b : Bool) (r : CommRow) :
    commRowValue ref b r
      = coerceCell (effectiveCC b r) * ((commMatches ref r).map CpeRow.weight_content).sum
        + coerceCell r.passive_engagement
            * ((commMatches ref r).map CpeRow.weight_passive).sum
        + coerceCell r.active_engagement
            * ((commMatches ref r).map CpeRow.weight_active).sum
        + coerceCell r.amplification
            * ((commMatches ref r).map CpeRow.weight_amplification).sum := by
  unfold commRowValue
  cases h : commMatches ref r with
  | nil => simp [commWeighted]
  | cons a t => exact comm_weighted_sum_linear b r (a :: t)

/-- C4: in every valuator, rows with identical key tuples accumulate
additively and are not pre-merged — splitting the quantity of a media,
creator or community row across two rows with the same key leaves the
result of the valuator unchanged — and against a unique-key creator
reference table with rate 100, rows with `num_posts` 3 and 5 sum to
800, the same as one row with `num_posts` 8. -/
theorem claim_C4_duplicate_keys_accumulate :
    (∀ (refs : RefTables) (pre post : List MediaRow) (ct tn : String) (q1 q2 : ℚ),
      calculate_media_echo refs
          (some (pre ++ ⟨ct, tn, Cell.num (q1 + q2), none, none⟩ :: post))
        = calculate_media_echo refs
          (some (pre ++ ⟨ct, tn, Cell.num q1, none, none⟩
            :: ⟨ct, tn, Cell.num q2, none, none⟩ :: post)))
    ∧ (∀ (refs : RefTables) (pre post : List CreatorRow) (p ct tr : String) (q1 q2 : ℚ),
      calculate_creator_echo refs
          (some (pre ++ ⟨p, ct, tr, Cell.num (q1 + q2), none⟩ :: post))
        = calculate_creator_echo refs
          (some (pre ++ ⟨p, ct, tr, Cell.num q1, none⟩
            :: ⟨p, ct, tr, Cell.num q2, none⟩ :: post)))
    ∧ (∀ (refs : RefTables) (b : Bool) (pre post : List CommRow) (pf : String)
        (c1 c2 p1 p2 a1 a2 m1 m2 : ℚ),
      calculate_community_echo refs
          (some ⟨b, pre ++ ⟨pf, Cell.num (c1 + c2), Cell.num (p1 + p2),
            Cell.num (a1 + a2), Cell.num (m1 + m2)⟩ :: post⟩)
        = calculate_community_echo refs
          (some ⟨b, pre ++ ⟨pf, Cell.num c1, Cell.num p1, Cell.num a1, Cell.num m1⟩
            :: ⟨pf, Cell.num c2, Cell.num p2, Cell.num a2, Cell.num m2⟩ :: post⟩))
    ∧ calculate_creator_echo singleRateRefs
        (some [⟨"Instagram", "Video Post", "Macro", Cell.num 3, none⟩,
               ⟨"Instagram", "Video Post", "Macro", Cell.num 5, none⟩]) = 800
    ∧ calculate_creator_echo singleRateRefs
        (some [⟨"Instagram", "Video Post", "Macro", Cell.num 8, none⟩]) = 800 := by
  refine ⟨fun refs pre post ct tn q1 q2 => ?_, fun refs pre post p ct tr q1 q2 => ?_,
    fun refs b pre post pf c1 c2 p1 p2 a1 a2 m1 m2 => ?_, ?_, ?_⟩
  · rw [media_echo_eq_sum, media_echo_eq_sum]
    simp only [normalizeMediaInputs, normalizeMediaRow, List.map_append,
      List.map_cons, List.sum_append, List.sum_cons, mediaRowValue_eq_mul,
      mediaMatches, coerceCell]
    ring_nf
  · rw [creator_echo_eq_sum, creator_echo_eq_sum]
    simp only [normalizeCreatorInputs, normalizeCreatorRow, List.map_append,
      List.map_cons, List.sum_append, List.sum_cons, creatorRowValue_eq_mul,
      creatorMatches, coerceCell]
    ring_nf
  · rw [comm_echo_eq_sum, comm_echo_eq_sum]
    cases b <;>
    · simp only [List.map_append, List.map_cons, List.sum_append, List.sum_cons,
        commRowValue_linear, commMatches, effectiveCC, coerceCell,
        eq_self_iff_true, Bool.false_eq_true, if_true, if_false]
      ring_nf
  · norm_num [calculate_creator_echo, normalizeCreatorInputs, normalizeCreatorRow,
      creatorRowValue, creatorMatches, coerceCell, singleRateRefs, List.filter,
      show creatorTypeMap "Video Post" = "Video Post" from by decide]
  · norm_num [calculate_creator_echo, normalizeCreatorInputs, normalizeCreatorRow,
      creatorRowValue, creatorMatches, coerceCell, singleRateRefs, List.filter,
      show creatorTypeMap "Video Post" = "Video Post" from by decide]

/-- The contribution of a media row depends on its fields only through the
join key and the coerced quantity. -/
theorem mediaRowValue_congr (ref : List MediaRefRow) (r r2 : MediaRow)
    (hcat : r.category = r2.category) (htfj : r.typeForJoin = r2.typeForJoin)
    (hm : coerceCell r.mentions = coerceCell r2.mentions) :
    mediaRowValue ref r = mediaRowValue ref r2 := by
  simp only [mediaRowValue, mediaMatches, hcat, htfj, hm]

/-- The contribution of a creator row depends on its fields only through the
join key and the coerced quantity. -/
theorem creatorRowValue_congr (ref : List CreatorRefRow) (r r2 : CreatorRow)
    (hp : r.platform = r2.platform) (htfj : r.typeForJoin = r2.typeForJoin)
    (ht : r.tier = r2.tier)
    (hn : coerceCell r.num_posts = coerceCell r2.num_posts) :
    creatorRowValue ref r = creatorRowValue ref r2 := by
  simp only [creatorRowValue, creatorMatches, hp, htfj, ht, hn]

/-- The contribution of a community row depends on its fields only through
the platform key and the four coerced quantities. -/
theorem commRowValue_congr (ref : List CpeRow) (b b2 : Bool) (r r2 : CommRow)
    (hp : r.platform = r2.platform)
    (hc : coerceCell (effectiveCC b r) = coerceCell (effectiveCC b2 r2))
    (hpe : coerceCell r.passive_engagement = coerceCell r2.passive_engagement)
    (hae : coerceCell r.active_engagement = coerceCell r2.active_engagement)
    (ha : coerceCell r.amplification = coerceCell r2.amplification) :
    commRowValue ref b r = commRowValue ref b2 r2 := by
  have hw : commWeighted b r = commWeighted b2 r2 := by
    funext t
    simp only [commWeighted, hc, hpe, hae, ha]
  simp only [commRowValue, commMatches, hp, hw]

/-- C6: in every valuator a missing quantity cell and a non-numeric
quantity cell are each coerced to 0 before multiplication — replacing
them by the number 0 leaves the valuation unchanged — and a community
table lacking the `content_creation` column is valued as if the column
were present and all zero. -/
theorem claim_C6_cell_coercion :
    (∀ (refs : RefTables) (pre post : List MediaRow) (r : MediaRow) (s : String),
      calculate_media_echo refs (some (pre ++ { r with mentions := Cell.missing } :: post))
        = calculate_media_echo refs (some (pre ++ { r with mentions := Cell.num 0 } :: post))
      ∧ calculate_media_echo refs (some (pre ++ { r with mentions := Cell.text s } :: post))
        = calculate_media_echo refs (some (pre ++ { r with mentions := Cell.num 0 } :: post)))
    ∧ (∀ (refs : RefTables) (pre post : List CreatorRow) (r : CreatorRow) (s : String),
      calculate_creator_echo refs (some (pre ++ { r with num_posts := Cell.missing } :: post))
        = calculate_creator_echo refs (some (pre ++ { r with num_posts := Cell.num 0 } :: post))
      ∧ calculate_creator_echo refs (some (pre ++ { r with num_posts := Cell.text s } :: post))
        = calculate_creator_echo refs (some (pre ++ { r with num_posts := Cell.num 0 } :: post)))
    ∧ (∀ (refs : RefTables) (b : Bool) (pre post : List CommRow) (pf : String) (s : String),
      calculate_community_echo refs
          (some ⟨b, pre ++ ⟨pf, Cell.missing, Cell.missing, Cell.missing, Cell.missing⟩ :: post⟩)
        = calculate_community_echo refs
          (some ⟨b, pre ++ ⟨pf, Cell.num 0, Cell.num 0, Cell.num 0, Cell.num 0⟩ :: post⟩)
      ∧ calculate_community_echo refs
          (some ⟨b, pre ++ ⟨pf, Cell.text s, Cell.text s, Cell.text s, Cell.text s⟩ :: post⟩)
        = calculate_community_echo refs
          (some ⟨b, pre ++ ⟨pf, Cell.num 0, Cell.num 0, Cell.num 0, Cell.num 0⟩ :: post⟩))
    ∧ (∀ (refs : RefTables) (rows : List CommRow),
      calculate_community_echo refs (some ⟨false, rows⟩)
        = calculate_community_echo refs
          (some ⟨true, rows.map fun r => { r with content_creation := Cell.num 0 }⟩)) := by
  refine ⟨fun refs pre post r s => ?_, fun refs pre post r s => ?_,
    fun refs b pre post pf s => ?_, fun refs rows => ?_⟩
  · constructor <;>
    · have h1 := mediaRowValue_congr refs.media_tier_df
        (normalizeMediaRow { r with mentions := Cell.missing })
        (normalizeMediaRow { r with mentions := Cell.num 0 })
        (by simp [normalizeMediaRow]) (by simp [normalizeMediaRow])
        (by simp [normalizeMediaRow, coerceCell])
      have h2 := mediaRowValue_congr refs.media_tier_df
        (normalizeMediaRow { r with mentions := Cell.text s })
        (normalizeMediaRow { r with mentions := Cell.num 0 })
        (by simp [normalizeMediaRow]) (by simp [normalizeMediaRow])
        (by simp [normalizeMediaRow, coerceCell])
      simp [media_echo_eq_sum, normalizeMediaInputs, h1, h2]
  · constructor <;>
    · have h1 := creatorRowValue_congr refs.creator_rate_df
        (normalizeCreatorRow { r with num_posts := Cell.missing })
        (normalizeCreatorRow { r with num_posts := Cell.num 0 })
        (by simp [normalizeCreatorRow]) (by simp [normalizeCreatorRow])
        (by simp [normalizeCreatorRow]) (by simp [normalizeCreatorRow, coerceCell])
      have h2 := creatorRowValue_congr refs.creator_rate_df
        (normalizeCreatorRow { r with num_posts := Cell.text s })
        (normalizeCreatorRow { r with num_posts := Cell.num 0 })
        (by simp [normalizeCreatorRow]) (by simp [normalizeCreatorRow])
        (by simp [normalizeCreatorRow]) (by simp [normalizeCreatorRow, coerceCell])
      simp [creator_echo_eq_sum, normalizeCreatorInputs, h1, h2]
  · constructor <;>
    · have h1 := commRowValue_congr refs.cpe_df b b
        ⟨pf, Cell.missing, Cell.missing, Cell.missing, Cell.missing⟩
        ⟨pf, Cell.num 0, Cell.num 0, Cell.num 0, Cell.num 0⟩
        rfl (by cases b <;> simp [effectiveCC, coerceCell])
        (by simp [coerceCell]) (by simp [coerceCell]) (by simp [coerceCell])
      have h2 := commRowValue_congr refs.cpe_df b b
        ⟨pf, Cell.text s, Cell.text s, Cell.text s, Cell.text s⟩
        ⟨pf, Cell.num 0, Cell.num 0, Cell.num 0, Cell.num 0⟩
        rfl (by cases b <;> simp [effectiveCC, coerceCell])
        (by simp [coerceCell]) (by simp [coerceCell]) (by simp [coerceCell])
      simp [comm_echo_eq_sum, h1, h2]
  · rw [comm_echo_eq_sum, comm_echo_eq_sum]
    simp only [List.map_map]
    congr 1

/-! ## Mutation model for C9

Python dataframes are heap objects passed by reference.  To state that
`calculate_campaign` never mutates a table of the caller, each valuator is
re-embedded as a program over an explicit heap of tables: the input is
a reference into the heap, `df.copy()` allocates a fresh slot at the
end of the heap, and every column assignment of the source is a write
to a heap slot.  The claim then becomes: the slots that existed before
the call hold the same tables after it. -/

/-- Read heap slot `i`. -/
def heapGet {α : Type} : List α → Nat → Option α
  | [], _ => none
  | a :: _, 0 => some a
  | _ :: t, n + 1 => heapGet t n

/-- Overwrite heap slot `i` (out-of-range writes are dropped). -/
def heapSet {α : Type} : List α → Nat → α → List α
  | [], _, _ => []
  | _ :: t, 0, b => b :: t
  | a :: t, n + 1, b => a :: heapSet t n b

/-- The table an optional reference denotes in a heap. -/
def heapDeref {α : Type} (h : List α) (r : Option Nat) : Option α :=
  r.bind (heapGet h)

theorem heapGet_concat {α : Type} (l : List α) (a : α) :
    heapGet (l ++ [a]) l.length = some a := by
  induction l with
  | nil => rfl
  | cons x t ih => simpa [heapGet] using ih

theorem heapSet_concat {α : Type} (l : List α) (a b : α) :
    heapSet (l ++ [a]) l.length b = l ++ [b] := by
  induction l with
  | nil => rfl
  | cons x t ih => simp [heapSet, ih]

theorem heapGet_append {α : Type} (l l2 : List α) (i : Nat) (t : α)
    (h : heapGet l i = some t) : heapGet (l ++ l2) i = some t := by
  induction l generalizing i with
  | nil => simp [heapGet] at h
  | cons x xs ih =>
    cases i with
    | zero => simpa [heapGet] using h
    | succ n => exact ih n (by simpa [heapGet] using h)

theorem take_concat {α : Type} (l : List α) (a : α) :
    (l ++ [a]).take l.length = l := by
  induction l with
  | nil => rfl
  | cons x t ih => simp [ih]

/-- Embeds `calculate_media_echo` as a heap program: `None` and dangling
references value to 0 without touching the heap; otherwise the empty
guard runs, the frame is copied into a fresh slot, the two column
assignments of `_normalize_media_inputs` write to that slot, and the
join-sum is computed from it. -/
def mediaEchoProg (refs : RefTables) (h : List (List MediaRow)) (r : Option Nat) :
    ℚ × List (List MediaRow) :=
  match r with
  | none => (0, h)
  | some ref =>
    match heapGet h ref with
    | none => (0, h)
    | some t =>
      if t.isEmpty then (0, h)
      else
        let i := h.length
        let h1 := h ++ [t]
        let h2 := heapSet h1 i (((heapGet h1 i).getD []).map fun row =>
          { row with category := some row.channel_type })
        let h3 := heapSet h2 i (((heapGet h2 i).getD []).map fun row =>
          { row with typeForJoin := some (mediaTypeMap row.tier_name) })
        let dfn := (heapGet h3 i).getD []
        ((dfn.map (mediaRowValue refs.media_tier_df)).sum, h3)

/-- Embeds `calculate_creator_echo` as a heap program. -/
def creatorEchoProg (refs : RefTables) (h : List (List CreatorRow)) (r : Option Nat) :
    ℚ × List (List CreatorRow) :=
  match r with
  | none => (0, h)
  | some ref =>
    match heapGet h ref with
    | none => (0, h)
    | some t =>
      if t.isEmpty then (0, h)
      else
        let i := h.length
        let h1 := h ++ [t]
        let h2 := heapSet h1 i (((heapGet h1 i).getD []).map fun row =>
          { row with typeForJoin := some (creatorTypeMap row.content_type) })
        let dfn := (heapGet h2 i).getD []
        ((dfn.map (creatorRowValue refs.creator_rate_df)).sum, h2)

/-- Embeds `calculate_community_echo` as a heap program: the missing
`content_creation` column is synthesized on a fresh copy
(calculator.py:200-202), never on the slot of the caller. -/
def commEchoProg (refs : RefTables) (h : List CommTable) (r : Option Nat) :
    ℚ × List CommTable :=
  match r with
  | none => (0, h)
  | some ref =>
    match heapGet h ref with
    | none => (0, h)
    | some t =>
      if t.rows.isEmpty then (0, h)
      else if t.hasCC then
        ((t.rows.map (commRowValue refs.cpe_df t.hasCC)).sum, h)
      else
        let i := h.length
        let h1 := h ++ [t]
        let h2 := heapSet h1 i
          (let u := (heapGet h1 i).getD ⟨false, []⟩
           ⟨true, u.rows.map fun row => { row with content_creation := Cell.num 0 }⟩)
        let u := (heapGet h2 i).getD ⟨false, []⟩
        ((u.rows.map (commRowValue refs.cpe_df u.hasCC)).sum, h2)

/-- Embeds `calculate_campaign` as a heap program threading the three heaps. -/
def campaignProg (refs : RefTables) (inv : ℚ)
    (hm : List (List MediaRow)) (hc : List (List CreatorRow)) (hco : List CommTable)
    (rm rc rco : Option Nat) :
    CampaignResult × List (List MediaRow) × List (List CreatorRow) × List CommTable :=
  let pm := mediaEchoProg refs hm rm
  let pc := creatorEchoProg refs hc rc
  let pco := commEchoProg refs hco rco
  let tev := pm.1 + pc.1 + pco.1
  (if inv ≠ 0 ∧ inv > 0 then
    ⟨pm.1, pc.1, pco.1, tev, tev / inv, (tev - inv) / inv * 100⟩
   else ⟨pm.1, pc.1, pco.1, tev, 0, 0⟩, pm.2, pc.2, pco.2)

/-- The media heap program computes the pure media echo of the
referenced table, leaves every pre-existing heap slot unchanged, and
leaves the reference denoting the same table. -/
theorem mediaEchoProg_spec (refs : RefTables) (h : List (List MediaRow)) (r : Option Nat) :
    (mediaEchoProg refs h r).1 = calculate_media_echo refs (heapDeref h r)
    ∧ (mediaEchoProg refs h r).2.take h.length = h
    ∧ heapDeref (mediaEchoProg refs h r).2 r = heapDeref h r := by
  cases r with
  | none => simp [mediaEchoProg, heapDeref, calculate_media_echo, List.take_length]
  | some ref =>
    cases hg : heapGet h ref with
    | none =>
      simp [mediaEchoProg, hg, heapDeref, calculate_media_echo, List.take_length]
    | some t =>
      cases he : t.isEmpty with
      | true =>
        simp [mediaEchoProg, hg, he, heapDeref, calculate_media_echo, List.take_length]
      | false =>
        refine ⟨?_, ?_, ?_⟩
        · simp [mediaEchoProg, hg, he, heapGet_concat, heapSet_concat, heapDeref,
            calculate_media_echo, List.map_map, normalizeMediaInputs, normalizeMediaRow]
          rfl
        · simp [mediaEchoProg, hg, he, heapGet_concat, heapSet_concat, take_concat]
        · simp only [mediaEchoProg, hg, he, heapGet_concat, heapSet_concat, heapDeref,
            Option.bind]
          exact heapGet_append h _ ref t hg

/-- The creator heap program computes the pure creator echo, preserves
pre-existing slots, and leaves the reference denoting the same table. -/
theorem creatorEchoProg_spec (refs : RefTables) (h : List (List CreatorRow)) (r : Option Nat) :
    (creatorEchoProg refs h r).1 = calculate_creator_echo refs (heapDeref h r)
    ∧ (creatorEchoProg refs h r).2.take h.length = h
    ∧ heapDeref (creatorEchoProg refs h r).2 r = heapDeref h r := by
  cases r with
  | none => simp [creatorEchoProg, heapDeref, calculate_creator_echo, List.take_length]
  | some ref =>
    cases hg : heapGet h ref with
    | none =>
      simp [creatorEchoProg, hg, heapDeref, calculate_creator_echo, List.take_length]
    | some t =>
      cases he : t.isEmpty with
      | true =>
        simp [creatorEchoProg, hg, he, heapDeref, calculate_creator_echo, List.take_length]
      | false =>
        refine ⟨?_, ?_, ?_⟩
        · simp [creatorEchoProg, hg, he, heapGet_concat, heapSet_concat, heapDeref,
            calculate_creator_echo, normalizeCreatorInputs, normalizeCreatorRow]
          rfl
        · simp [creatorEchoProg, hg, he, heapGet_concat, heapSet_concat, take_concat]
        · simp only [creatorEchoProg, hg, he, heapGet_concat, heapSet_concat, heapDeref,
            Option.bind]
          exact heapGet_append h _ ref t hg

/-- The community heap program computes the pure community echo,
preserves pre-existing slots (the synthesized `content_creation`
column lands on a fresh copy), and leaves the reference denoting the
same table. -/
theorem commEchoProg_spec (refs : RefTables) (h : List CommTable) (r : Option Nat) :
    (commEchoProg refs h r).1 = calculate_community_echo refs (heapDeref h r)
    ∧ (commEchoProg refs h r).2.take h.length = h
    ∧ heapDeref (commEchoProg refs h r).2 r = heapDeref h r := by
  cases r with
  | none => simp [commEchoProg, heapDeref, calculate_community_echo, List.take_length]
  | some ref =>
    cases hg : heapGet h ref with
    | none =>
      simp [commEchoProg, hg, heapDeref, calculate_community_echo, List.take_length]
    | some t =>
      cases he : t.rows.isEmpty with
      | true =>
        simp [commEchoProg, hg, he, heapDeref, calculate_community_echo, List.take_length]
      | false =>
        cases hcc : t.hasCC with
        | true =>
          refine ⟨?_, ?_, ?_⟩
          · simp [commEchoProg, hg, he, hcc, heapDeref, calculate_community_echo]
          · simp [commEchoProg, hg, he, hcc, List.take_length]
          · simp [commEchoProg, hg, he, hcc, heapDeref]
        | false =>
          refine ⟨?_, ?_, ?_⟩
          · simp only [commEchoProg, hg, he, hcc, heapGet_concat, heapSet_concat,
              Option.getD, heapDeref, Option.bind, Bool.false_eq_true, if_false]
            rw [comm_echo_eq_sum]
            simp only [List.map_map, hcc]
            congr 1
          · simp [commEchoProg, hg, he, hcc, heapGet_concat, heapSet_concat, take_concat]
          · simp only [commEchoProg, hg, he, hcc, heapGet_concat, heapSet_concat,
              heapDeref, Option.bind]
            exact heapGet_append h _ ref t hg

/-- The result of the campaign heap program is the pure
`calculate_campaign` of the tables its references denote. -/
theorem campaignProg_result (refs : RefTables) (inv : ℚ)
    (hm : List (List MediaRow)) (hc : List (List CreatorRow)) (hco : List CommTable)
    (rm rc rco : Option Nat) :
    (campaignProg refs inv hm hc hco rm rc rco).1
      = calculate_campaign refs inv (heapDeref hm rm) (heapDeref hc rc)
          (heapDeref hco rco) := by
  simp only [campaignProg, calculate_campaign, (mediaEchoProg_spec refs hm rm).1,
    (creatorEchoProg_spec refs hc rc).1, (commEchoProg_spec refs hco rco).1]

/-- C9: with the reference tables fixed, `calculate_campaign` is pure —
its result is a function of the tables its arguments denote, running it
twice in sequence yields identical results, and it mutates none of its
three input tables: every heap slot that existed before the call is
unchanged after it. -/
theorem claim_C9_campaign_pure_no_mutation (refs : RefTables) (inv : ℚ)
    (hm : List (List MediaRow)) (hc : List (List CreatorRow)) (hco : List CommTable)
    (rm rc rco : Option Nat) :
    ((campaignProg refs inv hm hc hco rm rc rco).2.1.take hm.length = hm
      ∧ (campaignProg refs inv hm hc hco rm rc rco).2.2.1.take hc.length = hc
      ∧ (campaignProg refs inv hm hc hco rm rc rco).2.2.2.take hco.length = hco)
    ∧ (campaignProg refs inv hm hc hco rm rc rco).1
        = calculate_campaign refs inv (heapDeref hm rm) (heapDeref hc rc)
            (heapDeref hco rco)
    ∧ (campaignProg refs inv (campaignProg refs inv hm hc hco rm rc rco).2.1
          (campaignProg refs inv hm hc hco rm rc rco).2.2.1
          (campaignProg refs inv hm hc hco rm rc rco).2.2.2 rm rc rco).1
        = (campaignProg refs inv hm hc hco rm rc rco).1 := by
  refine ⟨⟨?_, ?_, ?_⟩, campaignProg_result refs inv hm hc hco rm rc rco, ?_⟩
  · simpa [campaignProg] using (mediaEchoProg_spec refs hm rm).2.1
  · simpa [campaignProg] using (creatorEchoProg_spec refs hc rc).2.1
  · simpa [campaignProg] using (commEchoProg_spec refs hco rco).2.1
  · rw [campaignProg_result, campaignProg_result]
    have hdm : heapDeref (campaignProg refs inv hm hc hco rm rc rco).2.1 rm
        = heapDeref hm rm := (mediaEchoProg_spec refs hm rm).2.2
    have hdc : heapDeref (campaignProg refs inv hm hc hco rm rc rco).2.2.1 rc
        = heapDeref hc rc := (creatorEchoProg_spec refs hc rc).2.2
    have hdco : heapDeref (campaignProg refs inv hm hc hco rm rc rco).2.2.2 rco
        = heapDeref hco rco := (commEchoProg_spec refs hco rco).2.2
    rw [hdm, hdc, hdco]

end Vero
